import Mathlib

/-!
Verification of the connection-registry write path: data model, patch merger,
conflict resolver, bulk upsert engine, redaction filter, and the
test-connection environment cleanup, together with theorems settling the
specified properties. The registry implementation itself is not part of the
available sources (only its test suite is), so every operation below is
modelled from the specification document.
-/

/-- Modelled from the spec: the central ConnectionRecord entity of the
registry (the stored shape). All optional attributes default to absent. -/
structure ConnectionRecord where
  connection_id : String
  conn_type : String
  description : Option String
  host : Option String
  login : Option String
  password : Option String
  schema : Option String
  port : Option Nat
  extra : Option String
deriving DecidableEq

/-- Modelled from the spec: a per-record validated input payload, as the
missing route layer hands it to the core. The business key and `conn_type`
are required; every other attribute carries an outer `Option` recording
whether the field was present in the request at all, and an inner `Option`
for an explicitly null value. -/
structure ConnectionBody where
  connection_id : String
  conn_type : String
  description : Option (Option String)
  host : Option (Option String)
  login : Option (Option String)
  password : Option (Option String)
  schema : Option (Option String)
  port : Option (Option Nat)
  extra : Option (Option String)
deriving DecidableEq

/-- Modelled from the spec: per-attribute decision of the Patch Merger of
the missing route layer, with the merge semantics pinned by the
repository's endpoint tests. Without a mask the patch is a full replace: a
field present in the payload overwrites the stored value and an absent
field is set to the absent/null value. With a mask, only fields named in
the mask and actually present in the payload are taken from the payload; a
masked field absent from the payload, like any unmasked field, keeps its
stored value. -/
def mergeField (mask : Option (List String)) (name : String)
    (stored : Option α) (payload : Option (Option α)) : Option α :=
  match mask with
  | none =>
    match payload with
    | some v => v
    | none => none
  | some m =>
    if m.contains name then
      match payload with
      | some v => v
      | none => stored
    else stored

/-- Modelled from the spec: per-attribute decision of the Patch Merger for a
required attribute (always present in the payload). -/
def mergeRequired (mask : Option (List String)) (name : String)
    (stored payload : String) : String :=
  match mask with
  | none => payload
  | some m => if m.contains name then payload else stored

/-- Modelled from the spec: the Patch Merger. Identity fields are never
mergeable; each non-identity attribute follows the masked/unmasked rule of
`mergeField`, as pinned by the repository's endpoint tests. -/
def merge (existing : ConnectionRecord) (payload : ConnectionBody)
    (mask : Option (List String)) : ConnectionRecord :=
  { connection_id := existing.connection_id
    conn_type := mergeRequired mask "conn_type" existing.conn_type payload.conn_type
    description := mergeField mask "description" existing.description payload.description
    host := mergeField mask "host" existing.host payload.host
    login := mergeField mask "login" existing.login payload.login
    password := mergeField mask "password" existing.password payload.password
    schema := mergeField mask "schema" existing.schema payload.schema
    port := mergeField mask "port" existing.port payload.port
    extra := mergeField mask "extra" existing.extra payload.extra }

/-- Modelled from the spec: a business key character is valid when it lies
in the class A-Za-z0-9_.- used by the identity constraint. -/
def validIdChar (c : Char) : Bool :=
  c.isAlphanum || c == '_' || c == '.' || c == '-'

/-- Modelled from the spec: the identity-character constraint on
`connection_id` (one or more characters of the allowed class). -/
def validConnId (s : String) : Bool :=
  !s.data.isEmpty && s.data.all validIdChar

/-- Modelled from the spec: a freshly created record obtained from a
payload; attributes absent from the payload become absent/null. -/
def recordOfBody (b : ConnectionBody) : ConnectionRecord :=
  { connection_id := b.connection_id
    conn_type := b.conn_type
    description := b.description.join
    host := b.host.join
    login := b.login.join
    password := b.password.join
    schema := b.schema.join
    port := b.port.join
    extra := b.extra.join }

/-- Modelled from the spec: the full form of a payload used by the bulk
overwrite path, in which every optional attribute is materialised as
present (absent fields become explicitly null), so that an unmasked merge
replaces every attribute. -/
def fullBody (b : ConnectionBody) : ConnectionBody :=
  { connection_id := b.connection_id
    conn_type := b.conn_type
    description := some b.description.join
    host := some b.host.join
    login := some b.login.join
    password := some b.password.join
    schema := some b.schema.join
    port := some b.port.join
    extra := some b.extra.join }

/-- The storage collaborator, modelled as the list of live records. -/
abbrev Store := List ConnectionRecord

/-- Point lookup by business key. -/
def getByKey : Store → String → Option ConnectionRecord
  | [], _ => none
  | r :: t, cid => if r.connection_id == cid then some r else getByKey t cid

/-- Existence check by business key. -/
def existsByKey (s : Store) (cid : String) : Bool :=
  (getByKey s cid).isSome

/-- Storage insert. -/
def insertRec (s : Store) (r : ConnectionRecord) : Store :=
  s ++ [r]

/-- Storage replace by business key. -/
def replaceRec (s : Store) (r : ConnectionRecord) : Store :=
  s.map (fun x => if x.connection_id == r.connection_id then r else x)

example : mergeField none "port" (some 8080) (none : Option (Option Nat)) = none := rfl
example : mergeField (some ["port"]) "port" (some 8080) (none : Option (Option Nat)) = some 8080 := rfl
example : mergeField (some ["host"]) "port" (some 8080) (some (some 9)) = some 8080 := rfl

/-- A JSON whitespace character. -/
def wsChar (c : Char) : Bool :=
  c == ' ' || c == '\t' || c == '\n' || c == '\r'

/-- Skip leading whitespace. -/
def skipWs : List Char → List Char
  | [] => []
  | c :: cs => if wsChar c then skipWs cs else c :: cs

/-- Escape quotes and backslashes for serialisation of a JSON string body. -/
def escapeChars : List Char → List Char
  | [] => []
  | c :: cs =>
    if c == '"' || c == '\\' then '\\' :: c :: escapeChars cs
    else c :: escapeChars cs

/-- Parse the body of a JSON string (the opening quote already consumed)
up to its closing quote, undoing quote/backslash escapes. Any other escape
makes the whole parse fail, in which case the redaction filter passes the
`extra` blob through untouched. -/
def parseStr : List Char → Option (List Char × List Char)
  | [] => none
  | c :: cs =>
    if c == '"' then some ([], cs)
    else if c == '\\' then
      match cs with
      | [] => none
      | d :: ds =>
        if d == '"' || d == '\\' then
          match parseStr ds with
          | some (s, r) => some (d :: s, r)
          | none => none
        else none
    else
      match parseStr cs with
      | some (s, r) => some (c :: s, r)
      | none => none

/-- Serialise a JSON string. -/
def serStr (s : List Char) : List Char :=
  '"' :: (escapeChars s ++ ['"'])

/-- Serialise one key/value pair in the normalised textual form. -/
def serPair (kv : List Char × List Char) : List Char :=
  serStr kv.1 ++ ':' :: ' ' :: serStr kv.2

/-- Serialise the pairs of a flat object, comma-space separated. -/
def serPairs : List (List Char × List Char) → List Char
  | [] => []
  | [kv] => serPair kv
  | kv :: kv2 :: t => serPair kv ++ ',' :: ' ' :: serPairs (kv2 :: t)

/-- Serialise a flat string-to-string object. -/
def serFlat (kvs : List (List Char × List Char)) : List Char :=
  '{' :: (serPairs kvs ++ ['}'])

/-- Parse a non-empty sequence of key/value pairs followed by the closing
brace; fuelled recursion (one unit of fuel per pair). -/
def parsePairsF : Nat → List Char → Option (List (List Char × List Char) × List Char)
  | 0, _ => none
  | fuel + 1, cs =>
    match cs with
    | '"' :: cs1 =>
      match parseStr cs1 with
      | some (k, r1) =>
        match skipWs r1 with
        | ':' :: r2 =>
          match skipWs r2 with
          | '"' :: r3 =>
            match parseStr r3 with
            | some (v, r4) =>
              match skipWs r4 with
              | ',' :: r5 =>
                match parsePairsF fuel (skipWs r5) with
                | some (kvs, rest) => some ((k, v) :: kvs, rest)
                | none => none
              | '}' :: r5 => some ([(k, v)], r5)
              | _ => none
            | none => none
          | _ => none
        | _ => none
      | none => none
    | _ => none

/-- Modelled from the spec: the Redaction Filter's inspection of the
`extra` attribute — parse it as a flat string-keyed, string-valued JSON
object; anything else is not transformed. -/
def parseFlatChars (cs : List Char) : Option (List (List Char × List Char)) :=
  match skipWs cs with
  | '{' :: r =>
    match skipWs r with
    | '}' :: r2 => if skipWs r2 = [] then some [] else none
    | r1 =>
      match parsePairsF (cs.length + 1) r1 with
      | some (kvs, rest) => if skipWs rest = [] then some kvs else none
      | none => none
  | _ => none

/-- Lower-case a character list. -/
def lowerChars (s : List Char) : List Char := s.map Char.toLower

/-- Boolean list-prefix test on characters. -/
def isPrefixChars : List Char → List Char → Bool
  | [], _ => true
  | _ :: _, [] => false
  | a :: as, b :: bs => a = b && isPrefixChars as bs

/-- Boolean infix (substring) test on characters. -/
def containsSub (pat : List Char) : List Char → Bool
  | [] => pat.isEmpty
  | c :: t => isPrefixChars pat (c :: t) || containsSub pat t

/-- Modelled from the spec: the configured sensitive-field name set of the
Redaction Filter (at minimum `password`; also secret, token, etc.). -/
def sensitiveNames : List String :=
  ["access_token", "api_key", "apikey", "authorization", "passphrase",
   "passwd", "password", "private_key", "secret", "token"]

/-- A key is sensitive when, lower-cased, it contains one of the configured
sensitive names. -/
def isSensitiveKey (k : List Char) : Bool :=
  sensitiveNames.any (fun n => containsSub n.data (lowerChars k))

/-- The fixed mask token, as characters. -/
def maskChars : List Char := ['*', '*', '*']

/-- The fixed mask token. -/
def maskStr : String := "***"

/-- Replace the value of every sensitive key of a parsed flat object by the
mask token. -/
def redactKVs (kvs : List (List Char × List Char)) : List (List Char × List Char) :=
  kvs.map (fun kv => (kv.1, if isSensitiveKey kv.1 then maskChars else kv.2))

/-- Modelled from the spec: redaction of the `extra` blob — parse, mask
sensitive values, re-serialise; unparseable input passes through. -/
def redactExtraChars (cs : List Char) : List Char :=
  match parseFlatChars cs with
  | some kvs => serFlat (redactKVs kvs)
  | none => cs

/-- String-level wrapper of `redactExtraChars`. -/
def redactExtra (s : String) : String :=
  String.mk (redactExtraChars s.data)

/-- Modelled from the spec: the Redaction Filter on a whole record. When
the process-wide redaction mode is enabled, the `password` attribute value
is replaced by the mask token and the `extra` attribute is redacted;
otherwise values pass through unchanged. -/
def redact (enabled : Bool) (r : ConnectionRecord) : ConnectionRecord :=
  if enabled then
    { r with
      password := r.password.map (fun _ => maskStr)
      extra := r.extra.map redactExtra }
  else r

example : redactExtra "\x7b\"password\":\"x\"\x7d" = "\x7b\"password\": \"***\"\x7d" := rfl
example : redactExtra "\x7b\"password\": \"test-password\"\x7d" = "\x7b\"password\": \"***\"\x7d" := rfl
example : redactExtra "\x7b\"key\": \"value\"\x7d" = "\x7b\"key\": \"value\"\x7d" := rfl
example : redactExtra "not json" = "not json" := rfl
example : redactExtra "\x7b\x7d" = "\x7b\x7d" := rfl

/-- Modelled from the spec: the storage-level conflict detail surfaced
verbatim with a uniqueness-conflict failure. -/
structure ConflictDetail where
  reason : String
  statement : String
  orig_error : String
deriving DecidableEq

/-- The conflict detail produced when a unique-key violation on the
business key is classified. -/
def uniqueViolation (cid : String) : ConflictDetail :=
  { reason := "Unique constraint violation"
    statement := "INSERT INTO connection"
    orig_error := "UNIQUE constraint failed: connection.conn_id: " ++ cid }

/-- Outcome of the single-record create operation. -/
inductive CreateResult
  | created (record : ConnectionRecord)
  | invalidIdentity (field : String)
  | conflict (detail : ConflictDetail)
deriving DecidableEq

/-- The identity-mismatch detail message of the patch operation. -/
def identityMismatchMsg : String :=
  "The connection_id in the request body does not match the URL parameter"

/-- The not-found detail message for an addressed business key. -/
def notFoundMsg (cid : String) : String :=
  "The Connection with connection_id: `" ++ cid ++ "` was not found"

/-- Outcome of the patch operation. -/
inductive PatchResult
  | updated (record : ConnectionRecord)
  | notFound (detail : String)
  | identityMismatch (detail : String)
deriving DecidableEq

/-- Outcome of the bulk upsert engine. -/
inductive BulkResult
  | createdAll (connections : List ConnectionRecord) (total_entries : Nat)
  | updatedSome (connections : List ConnectionRecord) (total_entries : Nat)
  | conflict (detail : ConflictDetail)
  | invalidIdentity (indices : List Nat)
deriving DecidableEq

/-- Modelled from the spec: the Conflict Resolver's three-way decision. -/
inductive Resolution
  | CREATE
  | REPLACE
  | REJECT
deriving DecidableEq

/-- Modelled from the spec: the Conflict Resolver — a new key always
creates; an existing key replaces when overwrite is allowed and rejects
otherwise. -/
def resolve (exists_ : Bool) (overwriteAllowed : Bool) : Resolution :=
  if !exists_ then Resolution.CREATE
  else if overwriteAllowed then Resolution.REPLACE
  else Resolution.REJECT

/-- Modelled from the spec: the single-record create operation. The
identity constraint is checked first, then the conflict pre-check; a new
record is built with absent optional attributes null, stored, and returned
redacted. -/
def create (enabled : Bool) (s : Store) (b : ConnectionBody) :
    Store × CreateResult :=
  if !validConnId b.connection_id then
    (s, CreateResult.invalidIdentity "connection_id")
  else if existsByKey s b.connection_id then
    (s, CreateResult.conflict (uniqueViolation b.connection_id))
  else
    let r := recordOfBody b
    (insertRec s r, CreateResult.created (redact enabled r))

/-- Modelled from the spec: the patch operation. The payload's embedded
business key must equal the addressed key — this fires before any other
processing; then the addressed record is looked up, merged under the
optional mask, stored, and returned redacted. -/
def patch (enabled : Bool) (s : Store) (cid : String) (b : ConnectionBody)
    (mask : Option (List String)) : Store × PatchResult :=
  if b.connection_id ≠ cid then
    (s, PatchResult.identityMismatch identityMismatchMsg)
  else
    match getByKey s cid with
    | none => (s, PatchResult.notFound (notFoundMsg cid))
    | some ex =>
      let m := merge ex b mask
      (replaceRec s m, PatchResult.updated (redact enabled m))

/-- Zero-based indices of batch candidates whose business key fails the
identity constraint, counting from `k`. -/
def invalidIndicesFrom (k : Nat) : List ConnectionBody → List Nat
  | [] => []
  | b :: t =>
    if validConnId b.connection_id then invalidIndicesFrom (k + 1) t
    else k :: invalidIndicesFrom (k + 1) t

/-- Zero-based indices of every offending candidate of a batch. -/
def invalidIndices (batch : List ConnectionBody) : List Nat :=
  invalidIndicesFrom 0 batch

/-- Apply one bulk candidate: replace through an unmasked merge of the full
payload when the key exists, insert a fresh record otherwise. -/
def applyOne (s : Store) (b : ConnectionBody) : Store × ConnectionRecord :=
  match getByKey s b.connection_id with
  | some ex =>
    let m := merge ex (fullBody b) none
    (replaceRec s m, m)
  | none =>
    let r := recordOfBody b
    (insertRec s r, r)

/-- Apply a whole batch sequentially, in input order. -/
def applyAll : Store → List ConnectionBody → Store × List ConnectionRecord
  | s, [] => (s, [])
  | s, b :: t =>
    let p := applyOne s b
    let q := applyAll p.1 t
    (q.1, p.2 :: q.2)

/-- Modelled from the spec: the Bulk Upsert Engine. Validation pass first
(whole batch rejected with every offending index on an identity failure),
then the resolution pass (any REJECT aborts the whole batch with a
conflict, nothing committed), then the apply pass, and response assembly
with every resulting record redacted. -/
def bulkUpsert (enabled : Bool) (s : Store) (batch : List ConnectionBody)
    (overwrite : Bool) : Store × BulkResult :=
  let bad := invalidIndices batch
  if bad ≠ [] then (s, BulkResult.invalidIdentity bad)
  else
    let anyExisting := batch.any (fun b => existsByKey s b.connection_id)
    if !overwrite && anyExisting then
      let cid :=
        match batch.find? (fun b => existsByKey s b.connection_id) with
        | some b => b.connection_id
        | none => ""
      (s, BulkResult.conflict (uniqueViolation cid))
    else
      let p := applyAll s batch
      let out := p.2.map (redact enabled)
      (p.1,
        if anyExisting then BulkResult.updatedSome out out.length
        else BulkResult.createdAll out out.length)

/-- Modelled from the spec: the external read path returns the addressed
record through the Redaction Filter. -/
def getConnection (enabled : Bool) (s : Store) (cid : String) :
    Option ConnectionRecord :=
  (getByKey s cid).map (redact enabled)

/-- A process environment, modelled as an association list. -/
abbrev Env := List (String × String)

/-- Modelled from the spec: the connection secrets environment-variable
name prefix (AIRFLOW_CONN_). -/
def connEnvPrefixStr : String := "AIRFLOW_CONN_"

/-- Set a key in an environment (dictionary semantics). -/
def setKey (env : Env) (k v : String) : Env :=
  env.filter (fun kv => kv.1 != k) ++ [(k, v)]

/-- Remove a key from an environment. -/
def removeKey (env : Env) (k : String) : Env :=
  env.filter (fun kv => kv.1 != k)

/-- Modelled from the spec: the excluded test-connection sandbox injects a
temporary connection variable under the secrets prefix for the driver
probe and removes it again on every exit path, whether the probe succeeds
or fails. -/
def testConnection (env : Env) (cid v : String) (probe : Bool) :
    Env × Bool :=
  let key := connEnvPrefixStr ++ cid.toUpper
  let env2 := setKey env key v
  let outcome := probe
  (removeKey env2 key, outcome)

/-- A key carries the connection secrets prefix. -/
def hasConnEnvPref (k : String) : Bool :=
  isPrefixChars connEnvPrefixStr.data k.data

/-! ### Round-trip lemmas for the flat-object parser and serialiser -/
theorem parseStr_escape (s rest : List Char) :
    parseStr (escapeChars s ++ '"' :: rest) = some (s, rest) := by
  induction s with
  | nil =>
    rw [show escapeChars [] = ([] : List Char) from rfl, List.nil_append, parseStr.eq_def]
    simp
  | cons c cs ih =>
    have e1 : escapeChars (c :: cs)
        = if c == '"' || c == '\\' then '\\' :: c :: escapeChars cs
          else c :: escapeChars cs := rfl
    cases hb : (c == '"' || c == '\\') with
    | true =>
      rw [e1, hb]
      simp only [if_true, List.cons_append]
      rw [parseStr.eq_def]
      simp [show (('\\' : Char) == '"') = false from by decide,
            show (('\\' : Char) == '\\') = true from by decide, hb, ih]
    | false =>
      have hq : (c == '"') = false := by
        cases h : c == '"'
        · rfl
        · rw [h] at hb; simp at hb
      have hw : (c == '\\') = false := by
        cases h : c == '\\'
        · rfl
        · rw [h] at hb; simp at hb
      rw [e1, hb]
      simp only [Bool.false_eq_true, if_false, List.cons_append]
      rw [parseStr.eq_def]
      simp [hq, hw, ih]

theorem serPairs_head (kv : List Char × List Char)
    (t : List (List Char × List Char)) :
    ∃ u, serPairs (kv :: t) = '"' :: u := by
  cases t with
  | nil =>
    refine ⟨escapeChars kv.1 ++ '"' :: ':' :: ' ' :: serStr kv.2, ?_⟩
    simp [serPairs, serPair, serStr]
  | cons kv2 t2 =>
    refine ⟨escapeChars kv.1 ++ '"' :: ':' :: ' ' :: (serStr kv.2 ++ ',' :: ' ' :: serPairs (kv2 :: t2)), ?_⟩
    simp [serPairs, serPair, serStr]

theorem serPairs_length (kv : List Char × List Char)
    (t : List (List Char × List Char)) :
    (kv :: t).length ≤ (serPairs (kv :: t)).length := by
  induction t generalizing kv with
  | nil => simp [serPairs, serPair, serStr]
  | cons kv2 t2 ih =>
    have h2 := ih kv2
    have hs : 1 ≤ (serPair kv).length := by
      simp [serPair, serStr]
    simp only [serPairs, List.length_append, List.length_cons] at h2 ⊢
    omega

theorem parsePairsF_ser (t : List (List Char × List Char))
    (kv : List Char × List Char) (fuel : Nat) (rest : List Char)
    (hfuel : t.length < fuel) :
    parsePairsF fuel (serPairs (kv :: t) ++ '}' :: rest) = some (kv :: t, rest) := by
  induction t generalizing kv fuel rest with
  | nil =>
    obtain ⟨f, rfl⟩ : ∃ f, fuel = f + 1 := ⟨fuel - 1, by omega⟩
    have hn : serPairs [kv] ++ '}' :: rest
        = '"' :: (escapeChars kv.1 ++ '"' :: ':' :: ' ' :: '"' ::
            (escapeChars kv.2 ++ '"' :: '}' :: rest)) := by
      simp [serPairs, serPair, serStr]
    rw [hn, parsePairsF.eq_def]
    simp [parseStr_escape, skipWs, wsChar]
  | cons kv2 t2 ih =>
    obtain ⟨f, rfl⟩ : ∃ f, fuel = f + 1 := ⟨fuel - 1, by omega⟩
    obtain ⟨u, hu⟩ := serPairs_head kv2 t2
    have hn : serPairs (kv :: kv2 :: t2) ++ '}' :: rest
        = '"' :: (escapeChars kv.1 ++ '"' :: ':' :: ' ' :: '"' ::
            (escapeChars kv.2 ++ '"' :: ',' :: ' ' ::
              (serPairs (kv2 :: t2) ++ '}' :: rest))) := by
      simp [serPairs, serPair, serStr]
    have hsk : skipWs (serPairs (kv2 :: t2) ++ '}' :: rest)
        = serPairs (kv2 :: t2) ++ '}' :: rest := by
      rw [hu, List.cons_append]
      simp [skipWs, wsChar]
    have hr : parsePairsF f (skipWs (serPairs (kv2 :: t2) ++ '}' :: rest))
        = some (kv2 :: t2, rest) := by
      rw [hsk]
      exact ih kv2 f rest (by simp only [List.length_cons] at hfuel; omega)
    rw [hn, parsePairsF.eq_def]
    simp [parseStr_escape, skipWs, wsChar, hr]

theorem parseFlat_serFlat (kvs : List (List Char × List Char)) :
    parseFlatChars (serFlat kvs) = some kvs := by
  cases kvs with
  | nil => decide
  | cons kv t =>
    obtain ⟨u, hu⟩ := serPairs_head kv t
    have h1 : serFlat (kv :: t) = '{' :: (serPairs (kv :: t) ++ '}' :: []) := by
      simp [serFlat]
    have hT : t.length < ('{' :: (serPairs (kv :: t) ++ '}' :: [])).length + 1 := by
      have h2 := serPairs_length kv t
      simp only [List.length_cons, List.length_append] at h2 ⊢
      omega
    have hp2 := parsePairsF_ser t kv (('{' :: (serPairs (kv :: t) ++ '}' :: [])).length + 1) [] hT
    rw [parseFlatChars.eq_def, h1]
    rw [hu] at hp2 ⊢
    simp only [List.cons_append] at hp2 ⊢
    simp only [List.length_cons, List.length_append, List.length_nil] at hp2
    have hsk : skipWs ('{' :: '"' :: (u ++ '}' :: []))
        = '{' :: '"' :: (u ++ '}' :: []) := by
      simp [skipWs, wsChar]
    rw [hsk]
    simp [skipWs, wsChar, hp2]

theorem redactKVs_idem (kvs : List (List Char × List Char)) :
    redactKVs (redactKVs kvs) = redactKVs kvs := by
  induction kvs with
  | nil => rfl
  | cons kv t ih =>
    simp only [redactKVs, List.map_cons] at ih ⊢
    refine congrArg₂ _ ?_ ih
    by_cases h : isSensitiveKey kv.1 = true <;> simp [h]

theorem redactExtraChars_idem (cs : List Char) :
    redactExtraChars (redactExtraChars cs) = redactExtraChars cs := by
  cases h : parseFlatChars cs with
  | none =>
    have hinner : redactExtraChars cs = cs := by
      rw [redactExtraChars, h]
    rw [hinner, hinner]
  | some kvs =>
    have hinner : redactExtraChars cs = serFlat (redactKVs kvs) := by
      rw [redactExtraChars, h]
    rw [hinner]
    rw [redactExtraChars, parseFlat_serFlat]
    simp [redactKVs_idem]

theorem redactExtra_idem (s : String) :
    redactExtra (redactExtra s) = redactExtra s := by
  simp [redactExtra, redactExtraChars_idem]

example : resolve false false = Resolution.CREATE := rfl
example : resolve true true = Resolution.REPLACE := rfl
example : resolve true false = Resolution.REJECT := rfl
example : validConnId "test_connection_id" = true := rfl
example : validConnId "test()" = false := rfl
example : validConnId "" = false := rfl
example : hasConnEnvPref "AIRFLOW_CONN_TEST" = true := rfl
example : hasConnEnvPref "PATH" = false := rfl

/-! ### Helper lemmas about the merger, the store and the batch validator -/

theorem mergeField_none_eq (name : String) (st : Option α) (p : Option (Option α)) :
    mergeField none name st p = p.join := by
  cases p <;> rfl

theorem mergeField_some_eq (m : List String) (name : String) (st : Option α)
    (p : Option (Option α)) :
    mergeField (some m) name st p = if m.contains name then p.getD st else st := by
  cases p <;> cases hm : m.contains name <;>
    (simp only [mergeField]; rw [hm]; simp)

theorem getByKey_append_none (s1 s2 : Store) (cid : String)
    (h : getByKey s1 cid = none) :
    getByKey (s1 ++ s2) cid = getByKey s2 cid := by
  induction s1 with
  | nil => simp [getByKey]
  | cons r t ih =>
    cases hq : (r.connection_id == cid) with
    | true =>
      simp only [getByKey, hq, if_true] at h
      exact absurd h (by simp)
    | false =>
      simp only [getByKey, hq, Bool.false_eq_true, if_false] at h
      rw [List.cons_append]
      simp only [getByKey, hq, Bool.false_eq_true, if_false]
      exact ih h

theorem invalidIndicesFrom_eq_nil (l : List ConnectionBody)
    (h : ∀ b ∈ l, validConnId b.connection_id = true) :
    ∀ k, invalidIndicesFrom k l = [] := by
  induction l with
  | nil => intro k; rfl
  | cons b t ih =>
    intro k
    have hb := h b (by simp)
    simp only [invalidIndicesFrom, hb, if_true]
    exact ih (fun c hc => h c (by simp [hc])) (k + 1)

theorem mem_invalidIndicesFrom (l : List ConnectionBody) :
    ∀ (k i : Nat), i ∈ invalidIndicesFrom k l ↔
      ∃ j c, l.get? j = some c ∧ validConnId c.connection_id = false ∧ i = k + j := by
  induction l with
  | nil => intro k i; simp [invalidIndicesFrom]
  | cons b t ih =>
    intro k i
    cases hv : validConnId b.connection_id with
    | true =>
      simp only [invalidIndicesFrom, hv, if_true]
      rw [ih (k + 1) i]
      constructor
      · rintro ⟨j, c, hg, hb, hi⟩
        exact ⟨j + 1, c, by simpa using hg, hb, by omega⟩
      · rintro ⟨j, c, hg, hb, hi⟩
        cases j with
        | zero =>
          rw [List.get?_cons_zero] at hg
          obtain rfl : b = c := by simpa using hg
          rw [hv] at hb
          exact absurd hb (by simp)
        | succ j2 =>
          exact ⟨j2, c, by simpa using hg, hb, by omega⟩
    | false =>
      simp only [invalidIndicesFrom, hv, Bool.false_eq_true, if_false, List.mem_cons]
      rw [ih (k + 1) i]
      constructor
      · rintro (rfl | ⟨j, c, hg, hb, hi⟩)
        · exact ⟨0, b, by simp, hv, by omega⟩
        · exact ⟨j + 1, c, by simpa using hg, hb, by omega⟩
      · rintro ⟨j, c, hg, hb, hi⟩
        cases j with
        | zero => left; omega
        | succ j2 =>
          right
          exact ⟨j2, c, by simpa using hg, hb, by omega⟩

/-! ### Concrete sample data -/

/-- A stored record mirroring the suite's seeded connection. -/
def sampleStored : ConnectionRecord :=
  { connection_id := "test_connection_id", conn_type := "test_type",
    description := some "some_description_a", host := some "some_host_a",
    login := some "some_login", password := none, schema := none,
    port := some 8080, extra := none }

/-- A patch payload touching only the host attribute. -/
def samplePatchBody : ConnectionBody :=
  { connection_id := "test_connection_id", conn_type := "test_type",
    description := none, host := some (some "test_host_patch"), login := none,
    password := none, schema := none, port := none, extra := none }

/-- A bulk candidate for the stored key with every optional field absent. -/
def sampleOverwriteBody : ConnectionBody :=
  { connection_id := "test_connection_id", conn_type := "new_test_type",
    description := none, host := none, login := none,
    password := none, schema := none, port := none, extra := none }

/-- A second, non-conflicting candidate. -/
def sampleBody2 : ConnectionBody :=
  { connection_id := "test_connection_id_2", conn_type := "test_type_2",
    description := none, host := none, login := none,
    password := none, schema := none, port := none, extra := none }

/-- A candidate with an invalid business key. -/
def badBody1 : ConnectionBody :=
  { connection_id := "****", conn_type := "test_type",
    description := none, host := none, login := none,
    password := none, schema := none, port := none, extra := none }

/-- Another candidate with an invalid business key. -/
def badBody2 : ConnectionBody :=
  { connection_id := "test()", conn_type := "test_type",
    description := none, host := none, login := none,
    password := none, schema := none, port := none, extra := none }

/-- A payload with a raw password and a sensitive key inside extra. -/
def pwBody : ConnectionBody :=
  { connection_id := "test_connection_id", conn_type := "test_type",
    description := none, host := none, login := none,
    password := some (some "test-password"), schema := none, port := none,
    extra := some (some "\x7b\"password\":\"x\"\x7d") }

/-- A patch payload whose embedded key disagrees with the addressed key. -/
def mismatchBody : ConnectionBody :=
  { connection_id := "i_am_not_a_connection", conn_type := "test_type",
    description := none, host := none, login := none,
    password := none, schema := none, port := none, extra := none }

/-! ### The claims -/


/-- C1 counterexample: the no-mask patch is not a sparse merge. Patching
the seeded record (stored port 8080) with a payload that omits port goes
through the patch operation and yields a merged record whose port is null
rather than the retained stored value, refuting the claim at this concrete
input. -/
theorem patch_no_mask_not_sparse_counterexample :
    sampleStored.port = some 8080 ∧
    samplePatchBody.port = none ∧
    patch false [sampleStored] "test_connection_id" samplePatchBody none
      = (replaceRec [sampleStored] (merge sampleStored samplePatchBody none),
         PatchResult.updated (redact false (merge sampleStored samplePatchBody none))) ∧
    (merge sampleStored samplePatchBody none).port = none ∧
    (merge sampleStored samplePatchBody none).port ≠ sampleStored.port := by
  decide

/-- C1 (amended): For every patch call with no update mask, the merged
record is a full replace of the non-identity attributes by the payload:
every attribute present in the payload takes the payload's value, and
every attribute absent from the payload is set to the absent/null value
rather than retaining its prior stored value; the identity is preserved.
This is the behaviour pinned by the repository's endpoint tests. -/
theorem patch_without_mask_is_full_replace
    (e : ConnectionRecord) (b : ConnectionBody) :
    (merge e b none).connection_id = e.connection_id ∧
    (merge e b none).conn_type = b.conn_type ∧
    (merge e b none).description = b.description.join ∧
    (merge e b none).host = b.host.join ∧
    (merge e b none).login = b.login.join ∧
    (merge e b none).password = b.password.join ∧
    (merge e b none).schema = b.schema.join ∧
    (merge e b none).port = b.port.join ∧
    (merge e b none).extra = b.extra.join ∧
    (∀ (enabled : Bool) (s : Store) (ex : ConnectionRecord),
      getByKey s b.connection_id = some ex →
      patch enabled s b.connection_id b none =
        (replaceRec s (merge ex b none),
         PatchResult.updated (redact enabled (merge ex b none)))) := by
  refine ⟨rfl, rfl, mergeField_none_eq "description" e.description b.description,
    mergeField_none_eq "host" e.host b.host,
    mergeField_none_eq "login" e.login b.login,
    mergeField_none_eq "password" e.password b.password,
    mergeField_none_eq "schema" e.schema b.schema,
    mergeField_none_eq "port" e.port b.port,
    mergeField_none_eq "extra" e.extra b.extra, ?_⟩
  intro enabled s ex h
  simp [patch, h]

/-- C2 counterexample: an attribute named in the mask but absent from the
payload is not cleared to the empty value. Under mask [login, port] with
neither field in the payload, the merged record keeps the stored login
some_login and port 8080, and the patch call stores and returns exactly
that merge, refuting the explicit-clear part of the claim at this
concrete input. -/
theorem patch_mask_no_explicit_clear_counterexample :
    samplePatchBody.login = none ∧
    samplePatchBody.port = none ∧
    (merge sampleStored samplePatchBody (some ["login", "port"])).login
      = some "some_login" ∧
    (merge sampleStored samplePatchBody (some ["login", "port"])).port
      = some 8080 ∧
    (merge sampleStored samplePatchBody (some ["login", "port"])).login ≠ none ∧
    patch false [sampleStored] "test_connection_id" samplePatchBody
        (some ["login", "port"])
      = (replaceRec [sampleStored]
           (merge sampleStored samplePatchBody (some ["login", "port"])),
         PatchResult.updated
           (redact false (merge sampleStored samplePatchBody (some ["login", "port"])))) := by
  decide

/-- C2 (amended): For every patch call with an update mask m and every
non-identity attribute: if the attribute is named in m and present in the
payload, the merged value is the payload's value; if it is named in m but
absent from the payload, it retains the existing stored value (there is no
explicit clear); if it is not named in m, it retains the existing stored
value even when a value for it is present in the payload. This is the
behaviour pinned by the repository's endpoint tests. -/
theorem patch_with_mask_updates_only_masked_present
    (e : ConnectionRecord) (b : ConnectionBody) (m : List String) :
    (merge e b (some m)).connection_id = e.connection_id ∧
    (merge e b (some m)).conn_type
      = (if m.contains "conn_type" then b.conn_type else e.conn_type) ∧
    (merge e b (some m)).description
      = (if m.contains "description" then b.description.getD e.description
         else e.description) ∧
    (merge e b (some m)).host
      = (if m.contains "host" then b.host.getD e.host else e.host) ∧
    (merge e b (some m)).login
      = (if m.contains "login" then b.login.getD e.login else e.login) ∧
    (merge e b (some m)).password
      = (if m.contains "password" then b.password.getD e.password
         else e.password) ∧
    (merge e b (some m)).schema
      = (if m.contains "schema" then b.schema.getD e.schema else e.schema) ∧
    (merge e b (some m)).port
      = (if m.contains "port" then b.port.getD e.port else e.port) ∧
    (merge e b (some m)).extra
      = (if m.contains "extra" then b.extra.getD e.extra else e.extra) := by
  exact ⟨rfl, rfl, mergeField_some_eq m "description" e.description b.description,
    mergeField_some_eq m "host" e.host b.host,
    mergeField_some_eq m "login" e.login b.login,
    mergeField_some_eq m "password" e.password b.password,
    mergeField_some_eq m "schema" e.schema b.schema,
    mergeField_some_eq m "port" e.port b.port,
    mergeField_some_eq m "extra" e.extra b.extra⟩

/-- C9: The redaction filter is idempotent: for every record r,
redact(redact(r)) == redact(r), with redaction enabled. -/
theorem redact_idempotent (r : ConnectionRecord) :
    redact true (redact true r) = redact true r := by
  cases r with
  | mk cid ct d h l pw sch pt ex =>
    simp only [redact, if_true, ConnectionRecord.mk.injEq, eq_self_iff_true,
      true_and, and_true]
    constructor
    · cases pw <;> rfl
    · cases ex <;> simp [redactExtra_idem]

/-- C3: For every bulkUpsert call with overwrite=true whose candidate's
connection_id already exists, the stored and returned record is a full
replace by the payload: every optional attribute absent from the candidate
payload ends up null, even if the pre-existing record had a value for it
(e.g. a prior port 8080 becomes null when the payload omits port). -/
theorem bulk_overwrite_is_full_replace (enabled : Bool) (s : Store)
    (b : ConnectionBody) (ex : ConnectionRecord)
    (hv : validConnId b.connection_id = true)
    (hex : getByKey s b.connection_id = some ex) :
    bulkUpsert enabled s [b] true =
      (replaceRec s (merge ex (fullBody b) none),
       BulkResult.updatedSome [redact enabled (merge ex (fullBody b) none)] 1) ∧
    (merge ex (fullBody b) none).connection_id = ex.connection_id ∧
    (merge ex (fullBody b) none).conn_type = b.conn_type ∧
    (merge ex (fullBody b) none).description = b.description.join ∧
    (merge ex (fullBody b) none).host = b.host.join ∧
    (merge ex (fullBody b) none).login = b.login.join ∧
    (merge ex (fullBody b) none).password = b.password.join ∧
    (merge ex (fullBody b) none).schema = b.schema.join ∧
    (merge ex (fullBody b) none).port = b.port.join ∧
    (merge ex (fullBody b) none).extra = b.extra.join := by
  refine ⟨?_, rfl, rfl, rfl, rfl, rfl, rfl, rfl, rfl, rfl⟩
  have hee : existsByKey s b.connection_id = true := by
    rw [existsByKey, hex]; rfl
  simp [bulkUpsert, invalidIndices, invalidIndicesFrom, hv, hee,
    applyAll, applyOne, hex]

/-- C4: For every bulkUpsert batch with overwrite=false that contains at
least one candidate whose connection_id already exists, the entire batch
is aborted with a single conflict outcome and no candidate of the batch is
committed, including candidates whose keys did not conflict
(all-or-nothing atomicity). -/
theorem bulk_conflict_aborts_whole_batch (enabled : Bool) (s : Store)
    (batch : List ConnectionBody)
    (hv : ∀ b ∈ batch, validConnId b.connection_id = true)
    (hex : batch.any (fun b => existsByKey s b.connection_id) = true) :
    ∃ d, bulkUpsert enabled s batch false = (s, BulkResult.conflict d) := by
  have hni : invalidIndices batch = [] := invalidIndicesFrom_eq_nil batch hv 0
  refine ⟨uniqueViolation
    (match batch.find? (fun b => existsByKey s b.connection_id) with
     | some b => b.connection_id
     | none => ""), ?_⟩
  simp [bulkUpsert, hni, hex]

/-- C5: For every create call and every bulkUpsert candidate whose
connection_id fails the identity character-class constraint, the operation
yields an identity-format error outcome identifying the offending field,
reporting for batches the zero-based index of every offending candidate
(not just the first), and no record is persisted. -/
theorem invalid_identity_rejects_batch (enabled overwrite : Bool) (s : Store)
    (b : ConnectionBody) (batch : List ConnectionBody) :
    (validConnId b.connection_id = false →
      create enabled s b = (s, CreateResult.invalidIdentity "connection_id")) ∧
    (invalidIndices batch ≠ [] →
      bulkUpsert enabled s batch overwrite
        = (s, BulkResult.invalidIdentity (invalidIndices batch))) ∧
    (∀ i, i ∈ invalidIndices batch ↔
      ∃ c, batch.get? i = some c ∧ validConnId c.connection_id = false) ∧
    validConnId "test()" = false := by
  refine ⟨?_, ?_, ?_, by decide⟩
  · intro h
    simp [create, h]
  · intro h
    simp [bulkUpsert, h]
  · intro i
    rw [invalidIndices, mem_invalidIndicesFrom]
    constructor
    · rintro ⟨j, c, hg, hb, hi⟩
      refine ⟨c, ?_, hb⟩
      obtain rfl : i = j := by omega
      exact hg
    · rintro ⟨c, hg, hb⟩
      exact ⟨i, c, hg, hb, by omega⟩

/-- C6: For every valid connection_id, create succeeds exactly once: the
first create returns Created and stores one record; a second create with
the same key and no overwrite yields ConflictError carrying the
storage-level conflict detail (reason, statement, orig_error), and the
stored record set is unchanged by the failed call. -/
theorem create_succeeds_exactly_once (enabled : Bool) (s : Store)
    (b b2 : ConnectionBody)
    (hv : validConnId b.connection_id = true)
    (hnew : existsByKey s b.connection_id = false)
    (hkey : b2.connection_id = b.connection_id) :
    create enabled s b =
      (insertRec s (recordOfBody b),
       CreateResult.created (redact enabled (recordOfBody b))) ∧
    create enabled (insertRec s (recordOfBody b)) b2 =
      (insertRec s (recordOfBody b),
       CreateResult.conflict (uniqueViolation b2.connection_id)) ∧
    (uniqueViolation b2.connection_id).reason = "Unique constraint violation" := by
  have hge : getByKey s b.connection_id = none := by
    rw [existsByKey] at hnew
    cases hq : getByKey s b.connection_id with
    | none => rfl
    | some r => rw [hq] at hnew; simp at hnew
  refine ⟨?_, ?_, rfl⟩
  · simp [create, hv, hnew]
  · have hv2 : validConnId b2.connection_id = true := by rw [hkey]; exact hv
    have hgi : getByKey (insertRec s (recordOfBody b)) b2.connection_id
        = some (recordOfBody b) := by
      rw [hkey, insertRec, getByKey_append_none s _ _ hge]
      simp [getByKey, recordOfBody]
    have hei : existsByKey (insertRec s (recordOfBody b)) b2.connection_id = true := by
      rw [existsByKey, hgi]; rfl
    simp [create, hv2, hei]

/-- C8: For every patch call whose payload contains a connection_id
different from the addressed connection_id in the URL, the outcome is
IdentityMismatch with the detail message naming the mismatch, and this
outcome fires before any other processing of the call — in particular
before the NotFound check for the addressed key (the store is arbitrary,
so the conclusion holds also when the addressed key has no record). -/
theorem patch_mismatch_fires_first (enabled : Bool) (s : Store) (cid : String)
    (b : ConnectionBody) (mask : Option (List String))
    (h : b.connection_id ≠ cid) :
    patch enabled s cid b mask = (s, PatchResult.identityMismatch identityMismatchMsg) ∧
    identityMismatchMsg
      = "The connection_id in the request body does not match the URL parameter" := by
  refine ⟨?_, rfl⟩
  simp [patch, h]

theorem isPrefixChars_self_append (l m : List Char) :
    isPrefixChars l (l ++ m) = true := by
  induction l with
  | nil => rfl
  | cons c t ih => simp [isPrefixChars, ih]

/-- C10: After every call to the test-connection operation returns —
whether the probe succeeds or fails — no environment variable whose name
starts with the connection secrets prefix remains in the process
environment: the temporarily injected connection variable is always
cleaned up, leaving the rest of the environment unchanged. -/
theorem test_connection_cleans_env (env : Env) (cid v : String) (probe : Bool)
    (h : ∀ kv ∈ env, hasConnEnvPref kv.1 = false) :
    (testConnection env cid v probe).1 = env ∧
    (testConnection env cid v probe).2 = probe ∧
    (∀ kv ∈ (testConnection env cid v probe).1, hasConnEnvPref kv.1 = false) := by
  have hkey : hasConnEnvPref (connEnvPrefixStr ++ cid.toUpper) = true := by
    rw [hasConnEnvPref, String.data_append]
    exact isPrefixChars_self_append _ _
  have hne : ∀ kv ∈ env, (kv.1 != connEnvPrefixStr ++ cid.toUpper) = true := by
    intro kv hkv
    have hp := h kv hkv
    rw [bne_iff_ne]
    intro he
    rw [he, hkey] at hp
    exact absurd hp (by simp)
  have henv : (testConnection env cid v probe).1 = env := by
    simp only [testConnection, setKey, removeKey, List.filter_append]
    have h1 : List.filter (fun kv => kv.1 != connEnvPrefixStr ++ cid.toUpper)
        [(connEnvPrefixStr ++ cid.toUpper, v)] = [] := by
      simp
    have h2 : List.filter (fun kv => kv.1 != connEnvPrefixStr ++ cid.toUpper) env
        = env := List.filter_eq_self.mpr hne
    rw [h2, h1, List.append_nil, h2]
  refine ⟨henv, rfl, ?_⟩
  rw [henv]
  exact h

theorem bulkUpsert_conflict_eq (enabled : Bool) (s : Store)
    (batch : List ConnectionBody) (overwrite : Bool)
    (hni : invalidIndices batch = [])
    (hc : (!overwrite && batch.any fun b => existsByKey s b.connection_id) = true) :
    ∃ d, bulkUpsert enabled s batch overwrite = (s, BulkResult.conflict d) := by
  refine ⟨uniqueViolation
    (match batch.find? (fun b => existsByKey s b.connection_id) with
     | some b => b.connection_id
     | none => ""), ?_⟩
  simp only [bulkUpsert]
  rw [if_neg (by simp [hni])]
  simp only [hc, if_true]

theorem bulkUpsert_apply_eq (enabled : Bool) (s : Store)
    (batch : List ConnectionBody) (overwrite : Bool)
    (hni : invalidIndices batch = [])
    (hc : (!overwrite && batch.any fun b => existsByKey s b.connection_id) = false) :
    bulkUpsert enabled s batch overwrite =
      ((applyAll s batch).1,
        if (batch.any fun b => existsByKey s b.connection_id) = true then
          BulkResult.updatedSome ((applyAll s batch).2.map (redact enabled))
            ((applyAll s batch).2.map (redact enabled)).length
        else
          BulkResult.createdAll ((applyAll s batch).2.map (redact enabled))
            ((applyAll s batch).2.map (redact enabled)).length) := by
  simp only [bulkUpsert]
  rw [if_neg (by simp [hni])]
  simp only [hc, Bool.false_eq_true, if_false]

/-- C7: With redaction enabled, every record returned by create, patch,
bulk-upsert, and read responses has its password attribute value replaced
by the mask token ***, and when its extra attribute parses as a flat JSON
object, the value of any key matching a sensitive name (e.g. password) is
replaced by *** and the object re-serialized to text (e.g. extra
'\x7b"password":"x"\x7d' becomes exactly '\x7b"password": "***"\x7d'). -/
theorem redaction_applied_to_every_response :
    (∀ r : ConnectionRecord,
      (redact true r).password = r.password.map (fun _ => maskStr)) ∧
    (∀ r : ConnectionRecord,
      (redact true r).extra = r.extra.map redactExtra) ∧
    (∀ (cs : List Char) (kvs : List (List Char × List Char)),
      parseFlatChars cs = some kvs →
      redactExtraChars cs = serFlat (redactKVs kvs)) ∧
    redactExtra "\x7b\"password\":\"x\"\x7d" = "\x7b\"password\": \"***\"\x7d" ∧
    maskStr = "***" ∧
    (∀ (s : Store) (b : ConnectionBody) (s2 : Store) (rec : ConnectionRecord),
      create true s b = (s2, CreateResult.created rec) →
      rec = redact true (recordOfBody b)) ∧
    (∀ (s : Store) (cid : String) (b : ConnectionBody)
        (mask : Option (List String)) (s2 : Store) (rec : ConnectionRecord),
      patch true s cid b mask = (s2, PatchResult.updated rec) →
      ∃ ex, getByKey s cid = some ex ∧ rec = redact true (merge ex b mask)) ∧
    (∀ (s : Store) (batch : List ConnectionBody) (overwrite : Bool)
        (s2 : Store) (recs : List ConnectionRecord) (n : Nat),
      (bulkUpsert true s batch overwrite = (s2, BulkResult.createdAll recs n) ∨
       bulkUpsert true s batch overwrite = (s2, BulkResult.updatedSome recs n)) →
      recs = (applyAll s batch).2.map (redact true)) ∧
    (∀ (s : Store) (cid : String) (r : ConnectionRecord),
      getConnection true s cid = some r →
      ∃ ex, getByKey s cid = some ex ∧ r = redact true ex) := by
  refine ⟨fun r => rfl, fun r => rfl, ?_, rfl, rfl, ?_, ?_, ?_, ?_⟩
  · intro cs kvs h
    rw [redactExtraChars, h]
  · intro s b s2 rec h
    rw [create] at h
    split at h
    · exact absurd (congrArg Prod.snd h) (by simp)
    · split at h
      · exact absurd (congrArg Prod.snd h) (by simp)
      · have hsnd := congrArg Prod.snd h
        simp only at hsnd
        exact ((CreateResult.created.injEq _ _).mp hsnd).symm
  · intro s cid b mask s2 rec h
    rw [patch] at h
    split at h
    · exact absurd (congrArg Prod.snd h) (by simp)
    · cases hq : getByKey s cid with
      | none =>
        rw [hq] at h
        exact absurd (congrArg Prod.snd h) (by simp)
      | some ex =>
        rw [hq] at h
        have hsnd := congrArg Prod.snd h
        simp only at hsnd
        exact ⟨ex, rfl, ((PatchResult.updated.injEq _ _).mp hsnd).symm⟩
  · intro s batch overwrite s2 recs n h
    by_cases hni : invalidIndices batch = []
    · by_cases hc : (!overwrite && batch.any fun b => existsByKey s b.connection_id) = true
      · obtain ⟨d, hd⟩ := bulkUpsert_conflict_eq true s batch overwrite hni hc
        rw [hd] at h
        rcases h with h | h <;> exact absurd (congrArg Prod.snd h) (by simp)
      · have heq := bulkUpsert_apply_eq true s batch overwrite hni
          (by simpa using hc)
        rw [heq] at h
        rcases h with h | h
        · have hsnd := congrArg Prod.snd h
          simp only at hsnd
          split at hsnd
          · exact absurd hsnd (by simp)
          · exact ((BulkResult.createdAll.injEq _ _ _ _).mp hsnd).1.symm
        · have hsnd := congrArg Prod.snd h
          simp only at hsnd
          split at hsnd
          · exact ((BulkResult.updatedSome.injEq _ _ _ _).mp hsnd).1.symm
          · exact absurd hsnd (by simp)
    · have hinv : bulkUpsert true s batch overwrite
          = (s, BulkResult.invalidIdentity (invalidIndices batch)) := by
        simp [bulkUpsert, hni]
      rw [hinv] at h
      rcases h with h | h <;> exact absurd (congrArg Prod.snd h) (by simp)
  · intro s cid r h
    cases hq : getByKey s cid with
    | none => rw [getConnection, hq] at h; exact absurd h (by simp)
    | some ex =>
      rw [getConnection, hq] at h
      exact ⟨ex, rfl, by simpa using h.symm⟩

/-! ### Concrete witnesses -/

theorem patch_without_mask_is_full_replace_witness :
    getByKey [sampleStored] "test_connection_id" = some sampleStored ∧
    patch false [sampleStored] "test_connection_id" samplePatchBody none
      = (replaceRec [sampleStored] (merge sampleStored samplePatchBody none),
         PatchResult.updated (redact false (merge sampleStored samplePatchBody none))) := by
  have h := (patch_without_mask_is_full_replace sampleStored
    samplePatchBody).2.2.2.2.2.2.2.2.2
  exact ⟨by decide, h false [sampleStored] sampleStored (by decide)⟩

theorem bulk_overwrite_is_full_replace_witness :
    validConnId "test_connection_id" = true ∧
    bulkUpsert false [sampleStored] [sampleOverwriteBody] true
      = (replaceRec [sampleStored]
           (merge sampleStored (fullBody sampleOverwriteBody) none),
         BulkResult.updatedSome
           [redact false (merge sampleStored (fullBody sampleOverwriteBody) none)] 1) ∧
    (merge sampleStored (fullBody sampleOverwriteBody) none).port = none := by
  have h := bulk_overwrite_is_full_replace false [sampleStored]
    sampleOverwriteBody sampleStored (by decide) (by decide)
  exact ⟨by decide, h.1, by decide⟩

theorem bulk_conflict_aborts_whole_batch_witness :
    ∃ d, bulkUpsert false [sampleStored] [sampleOverwriteBody, sampleBody2] false
      = ([sampleStored], BulkResult.conflict d) :=
  bulk_conflict_aborts_whole_batch false [sampleStored]
    [sampleOverwriteBody, sampleBody2] (by decide) (by decide)

theorem invalid_identity_rejects_batch_witness :
    create false [] badBody2 = ([], CreateResult.invalidIdentity "connection_id") ∧
    bulkUpsert false [] [badBody1, badBody2] false
      = ([], BulkResult.invalidIdentity [0, 1]) := by
  have h := invalid_identity_rejects_batch false false [] badBody2 [badBody1, badBody2]
  refine ⟨h.1 (by decide), ?_⟩
  exact (h.2.1 (by decide)).trans (by decide)

theorem create_succeeds_exactly_once_witness :
    create false [] sampleOverwriteBody
      = (insertRec [] (recordOfBody sampleOverwriteBody),
         CreateResult.created (redact false (recordOfBody sampleOverwriteBody))) ∧
    create false (insertRec [] (recordOfBody sampleOverwriteBody)) sampleOverwriteBody
      = (insertRec [] (recordOfBody sampleOverwriteBody),
         CreateResult.conflict (uniqueViolation "test_connection_id")) := by
  have h := create_succeeds_exactly_once false [] sampleOverwriteBody
    sampleOverwriteBody (by decide) (by decide) rfl
  exact ⟨h.1, h.2.1⟩

theorem redaction_applied_to_every_response_witness :
    ∃ rec, create true [] pwBody
        = (insertRec [] (recordOfBody pwBody), CreateResult.created rec)
      ∧ rec = redact true (recordOfBody pwBody)
      ∧ rec.password = some "***"
      ∧ rec.extra = some "\x7b\"password\": \"***\"\x7d" := by
  have hc : create true [] pwBody
      = (insertRec [] (recordOfBody pwBody),
         CreateResult.created (redact true (recordOfBody pwBody))) := by decide
  refine ⟨redact true (recordOfBody pwBody), hc, ?_, by decide, by decide⟩
  exact redaction_applied_to_every_response.2.2.2.2.2.1 [] pwBody _ _ hc

theorem patch_mismatch_fires_first_witness :
    getByKey [] "test_connection_id" = none ∧
    patch false [] "test_connection_id" mismatchBody none
      = ([], PatchResult.identityMismatch identityMismatchMsg) := by
  exact ⟨rfl, (patch_mismatch_fires_first false [] "test_connection_id"
    mismatchBody none (by decide)).1⟩

theorem test_connection_cleans_env_witness :
    (testConnection [("PATH", "/usr/bin")] "test_connection_id" "sqlite://" true).1
      = [("PATH", "/usr/bin")] ∧
    (testConnection [("PATH", "/usr/bin")] "test_connection_id" "sqlite://" false).1
      = [("PATH", "/usr/bin")] := by
  exact ⟨(test_connection_cleans_env [("PATH", "/usr/bin")] "test_connection_id"
      "sqlite://" true (by decide)).1,
    (test_connection_cleans_env [("PATH", "/usr/bin")] "test_connection_id"
      "sqlite://" false (by decide)).1⟩
